import Mathlib

/-!
# Verification of the QuakeFlow earthquake event comparison engine

Shallow embedding of `mcp_phasenet_comparison/src/services/event-matcher.js`
(the greedy event matcher and the match scorer) and of the metrics
calculator `PhaseNetComparisonService.calculatePerformanceMetrics` /
`calculateStats`, together with theorems settling the specification claims.

Modelling conventions:
* JavaScript numbers are idealised as exact rationals (`ℚ`); no claim in
  scope hinges on IEEE-754 rounding.  A separate NaN-aware embedding
  (`EventN`, `matchEventsNaN`) is used for the claim about non-finite
  inputs, where `none` plays the role of NaN with JavaScript comparison
  semantics (every comparison against NaN is false).
* `event.time` is a string parsed with `new Date(...)` in the source; the
  embedding carries the resulting epoch value `Date.getTime()` directly,
  in milliseconds, as the event's `time` field.
* The great-circle distance (`EventMatcher.calculateDistance`) delegates
  to the external `haversine` npm package, which is not part of this
  repository; the embedding takes the distance function as an explicit
  parameter `dist : ℚ → ℚ → ℚ → ℚ → ℚ` (lat1, lon1, lat2, lon2 ↦ km).
  All theorems about the matcher hold for every such function.
-/

/-- A normalized seismic event as consumed by the matcher.
`time` is the epoch timestamp in milliseconds (`new Date(event.time).getTime()`);
`depth_km` and `magnitude` are optional fields (`none` = absent/null). -/
structure Event where
  time : ℚ
  latitude : ℚ
  longitude : ℚ
  depth_km : Option ℚ
  magnitude : Option ℚ
deriving DecidableEq, Repr

/-- Matching criteria after defaulting (`{ ...this.defaultCriteria, ...criteria }`). -/
structure MatchingCriteria where
  timeWindow : ℚ
  distanceThreshold : ℚ
  magnitudeDiffThreshold : ℚ
  depthDiffThreshold : ℚ
deriving DecidableEq, Repr

/-- Caller-supplied partial criteria: the JavaScript call site may omit any
field, and `matchEvents` spreads defaults underneath. -/
structure PartialCriteria where
  timeWindow : Option ℚ
  distanceThreshold : Option ℚ
  magnitudeDiffThreshold : Option ℚ
  depthDiffThreshold : Option ℚ
deriving DecidableEq, Repr

/-- `this.defaultCriteria` from the `EventMatcher` constructor. -/
def defaultCriteria : MatchingCriteria :=
  { timeWindow := 30.0
    distanceThreshold := 10.0
    magnitudeDiffThreshold := 1.0
    depthDiffThreshold := 50.0 }

/-- `const matchingCriteria = { ...this.defaultCriteria, ...criteria }`:
fields present in the caller's object override the defaults. -/
def mergeCriteria (c : PartialCriteria) : MatchingCriteria :=
  { timeWindow := c.timeWindow.getD defaultCriteria.timeWindow
    distanceThreshold := c.distanceThreshold.getD defaultCriteria.distanceThreshold
    magnitudeDiffThreshold := c.magnitudeDiffThreshold.getD defaultCriteria.magnitudeDiffThreshold
    depthDiffThreshold := c.depthDiffThreshold.getD defaultCriteria.depthDiffThreshold }

/-- A fully specified `PartialCriteria`, on which `mergeCriteria` keeps
every field as given. -/
def fullCriteria (mc : MatchingCriteria) : PartialCriteria :=
  ⟨some mc.timeWindow, some mc.distanceThreshold,
   some mc.magnitudeDiffThreshold, some mc.depthDiffThreshold⟩

/-- `EventMatcher.calculateMatchScore`: normalize each difference by its
threshold and combine with fixed weights 0.4 / 0.4 / 0.15 / 0.05; a `null`
magnitude difference contributes 0. -/
def calculateMatchScore (timeDiff distance : ℚ) (magnitudeDiff : Option ℚ)
    (depthDiff : ℚ) (criteria : MatchingCriteria) : ℚ :=
  let timeScore := (timeDiff / criteria.timeWindow) * 0.4
  let distanceScore := (distance / criteria.distanceThreshold) * 0.4
  let magnitudeScore :=
    match magnitudeDiff with
    | some md => (md / criteria.magnitudeDiffThreshold) * 0.15
    | none => 0
  let depthScore := (depthDiff / criteria.depthDiffThreshold) * 0.05
  timeScore + distanceScore + magnitudeScore + depthScore

/-- The depth coercion `event.depth_km || 10.0`: JavaScript `||` replaces
every falsy value by 10.0, so both an absent field and a present value of
exactly 0 become 10.0. -/
def effDepth : Option ℚ → ℚ
  | none => 10.0
  | some d => if d = 0 then 10.0 else d

/-- `timeDiff`: absolute difference of `getTime()` values, converted from
milliseconds to seconds (`/ 1000`). -/
def timeDiffOf (refEvent detEvent : Event) : ℚ :=
  |refEvent.time - detEvent.time| / 1000

/-- `magnitudeDiff`: `null` unless both magnitudes are present, else the
absolute difference. -/
def magnitudeDiffOf (refEvent detEvent : Event) : Option ℚ :=
  match refEvent.magnitude, detEvent.magnitude with
  | some rm, some dm => some |rm - dm|
  | _, _ => none

/-- `depthDiff`: absolute difference of the coerced depths. -/
def depthDiffOf (refEvent detEvent : Event) : ℚ :=
  |effDepth refEvent.depth_km - effDepth detEvent.depth_km|

/-- A committed or candidate match record (`bestMatch` object in the source).
The source also stores the two event objects; they are carried here as well. -/
structure MatchCandidate where
  referenceIndex : ℕ
  detectedIndex : ℕ
  referenceEvent : Event
  detectedEvent : Event
  timeDiff : ℚ
  distance : ℚ
  magnitudeDiff : Option ℚ
  depthDiff : ℚ
  matchScore : ℚ
deriving DecidableEq, Repr

/-- Summary counts included in the matcher's result object. -/
structure MatchSummary where
  totalReference : ℕ
  totalDetected : ℕ
  matchedPairs : ℕ
  unmatchedReference : ℕ
  unmatchedDetected : ℕ
deriving DecidableEq, Repr

/-- The matcher's result object.  The source field `matches` is called
`matchesList` here because `matches` is a reserved token in Lean. -/
structure MatchResult where
  matchesList : List MatchCandidate
  unmatchedReference : List Event
  unmatchedDetected : List Event
  matchingCriteria : MatchingCriteria
  summary : MatchSummary
deriving DecidableEq, Repr

/-- Builds the `bestMatch` record exactly as the source does at the point
of selection. -/
def mkCandidate (dist : ℚ → ℚ → ℚ → ℚ → ℚ) (mc : MatchingCriteria)
    (refIdx : ℕ) (refEvent : Event) (p : ℕ × Event) : MatchCandidate :=
  let timeDiff := timeDiffOf refEvent p.2
  let distance := dist refEvent.latitude refEvent.longitude p.2.latitude p.2.longitude
  let magnitudeDiff := magnitudeDiffOf refEvent p.2
  let depthDiff := depthDiffOf refEvent p.2
  { referenceIndex := refIdx
    detectedIndex := p.1
    referenceEvent := refEvent
    detectedEvent := p.2
    timeDiff := timeDiff
    distance := distance
    magnitudeDiff := magnitudeDiff
    depthDiff := depthDiff
    matchScore := calculateMatchScore timeDiff distance magnitudeDiff depthDiff mc }

/-- One iteration of the inner `for (let detIdx ...)` loop: skip claimed
candidates, apply the four hard filters with early `continue`, then keep
the candidate iff its score is strictly below the best seen so far
(`bestScore` starts at `Infinity`, modelled by `best = none`). -/
def stepDet (dist : ℚ → ℚ → ℚ → ℚ → ℚ) (mc : MatchingCriteria)
    (refIdx : ℕ) (refEvent : Event) (claimed : List ℕ)
    (best : Option MatchCandidate) (p : ℕ × Event) : Option MatchCandidate :=
  if claimed.contains p.1 then best
  else
    let timeDiff := timeDiffOf refEvent p.2
    if timeDiff > mc.timeWindow then best
    else
      let distance := dist refEvent.latitude refEvent.longitude p.2.latitude p.2.longitude
      if distance > mc.distanceThreshold then best
      else
        let magnitudeDiff := magnitudeDiffOf refEvent p.2
        if (match magnitudeDiff with
            | some md => (md > mc.magnitudeDiffThreshold : Bool)
            | none => false) then best
        else
          let depthDiff := depthDiffOf refEvent p.2
          if depthDiff > mc.depthDiffThreshold then best
          else
            let cand := mkCandidate dist mc refIdx refEvent p
            match best with
            | none => some cand
            | some b => if cand.matchScore < b.matchScore then some cand else best

/-- The inner loop over all detected events (with their indices) for one
reference event: returns the winning `bestMatch`, if any. -/
def findBestMatch (dist : ℚ → ℚ → ℚ → ℚ → ℚ) (mc : MatchingCriteria)
    (refIdx : ℕ) (refEvent : Event) (dets : List Event)
    (claimed : List ℕ) : Option MatchCandidate :=
  dets.enum.foldl (stepDet dist mc refIdx refEvent claimed) none

/-- Loop state of the outer `for (let refIdx ...)` loop: the committed
matches and the two index sets (`matchedRefIndices`, `matchedDetIndices`). -/
structure MatchState where
  matchesList : List MatchCandidate
  matchedRefIndices : List ℕ
  matchedDetIndices : List ℕ
deriving DecidableEq, Repr

/-- One iteration of the outer loop: find the best unclaimed candidate for
this reference event; if one exists, commit it irrevocably. -/
def stepRef (dist : ℚ → ℚ → ℚ → ℚ → ℚ) (mc : MatchingCriteria)
    (dets : List Event) (st : MatchState) (p : ℕ × Event) : MatchState :=
  match findBestMatch dist mc p.1 p.2 dets st.matchedDetIndices with
  | none => st
  | some best =>
      { matchesList := st.matchesList ++ [best]
        matchedRefIndices := st.matchedRefIndices ++ [p.1]
        matchedDetIndices := st.matchedDetIndices ++ [best.detectedIndex] }

/-- `EventMatcher.matchEvents` after criteria merging: greedy reference-first
matching, then the unmatched remainders are read off by filtering each input
list on its index set. -/
def matchEventsWith (dist : ℚ → ℚ → ℚ → ℚ → ℚ) (referenceEvents detectedEvents : List Event)
    (mc : MatchingCriteria) : MatchResult :=
  let final := referenceEvents.enum.foldl (stepRef dist mc detectedEvents) ⟨[], [], []⟩
  let unmatchedReference :=
    (referenceEvents.enum.filter (fun p => ! final.matchedRefIndices.contains p.1)).map Prod.snd
  let unmatchedDetected :=
    (detectedEvents.enum.filter (fun p => ! final.matchedDetIndices.contains p.1)).map Prod.snd
  { matchesList := final.matchesList
    unmatchedReference := unmatchedReference
    unmatchedDetected := unmatchedDetected
    matchingCriteria := mc
    summary :=
      { totalReference := referenceEvents.length
        totalDetected := detectedEvents.length
        matchedPairs := final.matchesList.length
        unmatchedReference := unmatchedReference.length
        unmatchedDetected := unmatchedDetected.length } }

/-- `EventMatcher.matchEvents`: merges the caller's (possibly partial)
criteria over the defaults, then runs the matching loop. -/
def matchEvents (dist : ℚ → ℚ → ℚ → ℚ → ℚ) (referenceEvents detectedEvents : List Event)
    (criteria : PartialCriteria) : MatchResult :=
  matchEventsWith dist referenceEvents detectedEvents (mergeCriteria criteria)

/-- Modelled from the spec: the external `haversine` npm package (absent
from the repository) computes the great-circle distance, and the spec fixes
`distance(A,A) == 0` for identical points.  Every concrete event list used
in witnesses and counterexamples below places all events at one coordinate
pair, where the constant-zero function agrees with any great-circle
distance. -/
def distZero : ℚ → ℚ → ℚ → ℚ → ℚ := fun _ _ _ _ => 0

/-- Events placed at the shared coordinate pair (35°N, 139°E) used by all
concrete scenarios, so that `distZero` agrees with any great-circle
distance on them. -/
def evAt (t : ℚ) (d m : Option ℚ) : Event :=
  ⟨t, 35, 139, d, m⟩

theorem timeDiffOf_nonneg (r d : Event) : 0 ≤ timeDiffOf r d :=
  div_nonneg (abs_nonneg _) (by norm_num)

/-- C6: the scorer returns exactly the threshold-normalised weighted sum
with weights 2/5, 2/5, 3/20 (0 when the magnitude difference is absent)
and 1/20, and for non-negative differences and positive criteria the
result is non-negative.  The embedded function is total and pure by
construction, matching the spec's "no side effects and cannot fail". -/
theorem calculateMatchScore_spec (timeDiff distance depthDiff : ℚ)
    (magnitudeDiff : Option ℚ) (mc : MatchingCriteria)
    (htd : 0 ≤ timeDiff) (hd : 0 ≤ distance) (hdd : 0 ≤ depthDiff)
    (hmd : ∀ m, magnitudeDiff = some m → 0 ≤ m)
    (htw : 0 < mc.timeWindow) (hdt : 0 < mc.distanceThreshold)
    (hmt : 0 < mc.magnitudeDiffThreshold) (hdp : 0 < mc.depthDiffThreshold) :
    calculateMatchScore timeDiff distance magnitudeDiff depthDiff mc =
      (timeDiff / mc.timeWindow) * (2/5) + (distance / mc.distanceThreshold) * (2/5) +
        (match magnitudeDiff with
         | some md => (md / mc.magnitudeDiffThreshold) * (3/20)
         | none => 0) +
        (depthDiff / mc.depthDiffThreshold) * (1/20) ∧
    0 ≤ calculateMatchScore timeDiff distance magnitudeDiff depthDiff mc := by
  have h1 : 0 ≤ (timeDiff / mc.timeWindow) * (2/5                                                                 : ℚ) :=
    mul_nonneg (div_nonneg htd htw.le) (by norm_num)
  have h2 : 0 ≤ (distance / mc.distanceThreshold) * (2/5 : ℚ) :=
    mul_nonneg (div_nonneg hd hdt.le) (by norm_num)
  have h4 : 0 ≤ (depthDiff / mc.depthDiffThreshold) * (1/20 : ℚ) :=
    mul_nonneg (div_nonneg hdd hdp.le) (by norm_num)
  cases magnitudeDiff with
  | none =>
    constructor
    · unfold calculateMatchScore; norm_num
    · unfold calculateMatchScore
      have : ((0.4 : ℚ)) = 2/5 := by norm_num
      norm_num
      nlinarith
  | some md =>
    have hm : 0 ≤ md := hmd md rfl
    have h3 : 0 ≤ (md / mc.magnitudeDiffThreshold) * (3/20 : ℚ) :=
      mul_nonneg (div_nonneg hm hmt.le) (by norm_num)
    constructor
    · unfold calculateMatchScore; norm_num
    · unfold calculateMatchScore
      norm_num
      nlinarith

/-- Witness for `calculateMatchScore_spec` at concrete inputs. -/
theorem calculateMatchScore_spec_witness :
    0 ≤ calculateMatchScore 3 4 (some 1) 5 defaultCriteria :=
  (calculateMatchScore_spec 3 4 5 (some 1) defaultCriteria
    (by norm_num) (by norm_num) (by norm_num)
    (by intro m hm; simp only [Option.some.injEq] at hm; rw [← hm]; norm_num)
    (by norm_num [defaultCriteria]) (by norm_num [defaultCriteria])
    (by norm_num [defaultCriteria]) (by norm_num [defaultCriteria])).2

/-- C10: an event whose `depth_km` field is exactly 0 is handled by the
matcher's depth coercion (`depth_km || 10.0`) exactly as if the field were
absent: the effective depth is 10.0 km, and every depth difference the
matcher computes is unchanged when `some 0` is replaced by `none`. -/
theorem depth_zero_treated_as_missing (e : Event) (h : e.depth_km = some 0) :
    effDepth e.depth_km = 10 ∧ effDepth e.depth_km = effDepth none ∧
    (∀ other : Event,
      depthDiffOf e other = depthDiffOf { e with depth_km := none } other ∧
      depthDiffOf other e = depthDiffOf other { e with depth_km := none }) := by
  refine ⟨by rw [h]; norm_num [effDepth], by rw [h]; norm_num [effDepth], fun other => ?_⟩
  constructor <;> simp [depthDiffOf, h, effDepth]

/-- Witness for `depth_zero_treated_as_missing`. -/
theorem depth_zero_treated_as_missing_witness :
    effDepth (evAt 0 (some 0) none).depth_km = 10 :=
  (depth_zero_treated_as_missing (evAt 0 (some 0) none) rfl).1

theorem stepDet_skip_of_neg_timeWindow (dist : ℚ → ℚ → ℚ → ℚ → ℚ)
    (mc : MatchingCriteria) (i : ℕ) (r : Event) (claimed : List ℕ)
    (best : Option MatchCandidate) (p : ℕ × Event) (h : mc.timeWindow < 0) :
    stepDet dist mc i r claimed best p = best := by
  by_cases hc : p.1 ∈ claimed
  · simp [stepDet, hc]
  · have ht : ¬ timeDiffOf r p.2 ≤ mc.timeWindow :=
      not_le.mpr (lt_of_lt_of_le h (timeDiffOf_nonneg r p.2))
    simp [stepDet, hc, ht]

/-- C5 (amended): a negative `timeWindow` is not rejected or coerced; it is
used as-is, making the time filter reject every candidate, so the run
completes normally with no matches at all. -/
theorem negative_timeWindow_silently_used (dist : ℚ → ℚ → ℚ → ℚ → ℚ)
    (refs dets : List Event) (mc : MatchingCriteria) (h : mc.timeWindow < 0) :
    (matchEventsWith dist refs dets mc).matchesList = [] ∧
    (matchEventsWith dist refs dets mc).unmatchedReference = refs ∧
    (matchEventsWith dist refs dets mc).unmatchedDetected = dets := by
  have hfb : ∀ (i : ℕ) (r : Event) (claimed : List ℕ),
      findBestMatch dist mc i r dets claimed = none := by
    intro i r claimed
    exact List.foldl_fixed' (fun p => stepDet_skip_of_neg_timeWindow dist mc i r claimed none p h) _
  have hfold : refs.enum.foldl (stepRef dist mc dets) ⟨[], [], []⟩ = ⟨[], [], []⟩ :=
    List.foldl_fixed' (fun p => by simp [stepRef, hfb]) _
  unfold matchEventsWith
  rw [hfold]
  refine ⟨rfl, ?_, ?_⟩ <;> simp [List.enum_map_snd]

/-- Witness for `negative_timeWindow_silently_used`. -/
theorem negative_timeWindow_silently_used_witness :
    (matchEventsWith distZero [evAt 0 none none] [evAt 0 none none]
      ⟨-1, 10, 1, 50⟩).matchesList = [] :=
  (negative_timeWindow_silently_used distZero [evAt 0 none none] [evAt 0 none none]
    ⟨-1, 10, 1, 50⟩ (by norm_num)).1

/-- C5 counterexample: a criteria object with `timeWindow = -1` (all fields
caller-supplied, so nothing is defaulted) does not make the run fail: the
matcher completes and the non-positive value silently governs the outcome —
two identical events do not match under it, while they do match under the
default criteria. -/
theorem nonpositive_threshold_not_rejected :
    (matchEvents distZero [evAt 0 none none] [evAt 0 none none]
        ⟨some (-1), some 10, some 1, some 50⟩).matchesList = [] ∧
    (matchEvents distZero [evAt 0 none none] [evAt 0 none none]
        (fullCriteria defaultCriteria)).summary.matchedPairs = 1 := by
  constructor <;>
    norm_num [matchEvents, matchEventsWith, mergeCriteria, fullCriteria, defaultCriteria,
      stepRef, findBestMatch, stepDet, List.enum, List.enumFrom, timeDiffOf, magnitudeDiffOf,
      depthDiffOf, effDepth, mkCandidate, calculateMatchScore, distZero, evAt]

/-- C9: matching is not commutative in the roles of the two catalogs: with
two reference and two detected events, swapping the lists changes the set
of matched pairs.  Pairs are reported in the orientation of the original
run (reference index, detected index); the swapped run's pairs are mapped
back through the role swap. -/
theorem matching_not_commutative :
    ((matchEventsWith distZero [evAt 0 none none, evAt 10000 none none]
        [evAt 9000 none none, evAt 20000 none none] defaultCriteria).matchesList.map
        (fun m => (m.referenceIndex, m.detectedIndex)) = [(0, 0), (1, 1)]) ∧
    ((matchEventsWith distZero [evAt 9000 none none, evAt 20000 none none]
        [evAt 0 none none, evAt 10000 none none] defaultCriteria).matchesList.map
        (fun m => (m.detectedIndex, m.referenceIndex)) = [(1, 0), (0, 1)]) ∧
    ¬ ([(0, 0), (1, 1)] : List (ℕ × ℕ)).Perm [(1, 0), (0, 1)] := by
  refine ⟨?_, ?_, by decide⟩ <;>
    norm_num [matchEventsWith, defaultCriteria, stepRef, findBestMatch, stepDet,
      List.enum, List.enumFrom, timeDiffOf, magnitudeDiffOf, depthDiffOf, effDepth,
      mkCandidate, calculateMatchScore, distZero, evAt]

theorem findBestMatch_singleton_isSome (dist : ℚ → ℚ → ℚ → ℚ → ℚ)
    (mc : MatchingCriteria) (r d : Event) :
    (findBestMatch dist mc 0 r [d] []).isSome = true ↔
      (timeDiffOf r d ≤ mc.timeWindow ∧
       dist r.latitude r.longitude d.latitude d.longitude ≤ mc.distanceThreshold ∧
       (∀ md, magnitudeDiffOf r d = some md → md ≤ mc.magnitudeDiffThreshold) ∧
       depthDiffOf r d ≤ mc.depthDiffThreshold) := by
  have hstep : findBestMatch dist mc 0 r [d] [] = stepDet dist mc 0 r [] none (0, d) := rfl
  rw [hstep]
  unfold stepDet
  cases hmg : magnitudeDiffOf r d with
  | none =>
    by_cases h1 : timeDiffOf r d > mc.timeWindow
    · simp [h1, not_le.mpr h1]
    · by_cases h2 : dist r.latitude r.longitude d.latitude d.longitude > mc.distanceThreshold
      · simp [h1, h2, not_le.mpr h2]
      · by_cases h4 : depthDiffOf r d > mc.depthDiffThreshold
        · simp [h1, h2, h4, not_le.mpr h4]
        · simp [h1, h2, h4, not_lt.mp h1, not_lt.mp h2, not_lt.mp h4]
  | some md =>
    by_cases h1 : timeDiffOf r d > mc.timeWindow
    · simp [h1, not_le.mpr h1]
    · by_cases h2 : dist r.latitude r.longitude d.latitude d.longitude > mc.distanceThreshold
      · simp [h1, h2, not_le.mpr h2]
      · by_cases h3 : md > mc.magnitudeDiffThreshold
        · simp [h1, h2, h3, not_le.mpr h3]
        · by_cases h4 : depthDiffOf r d > mc.depthDiffThreshold
          · simp [h1, h2, h3, h4, not_le.mpr h4]
          · simp [h1, h2, h3, h4, not_lt.mp h1, not_lt.mp h2, not_lt.mp h3, not_lt.mp h4]

/-- C8: a candidate sitting exactly at a threshold passes that filter of
the matcher (all four boundaries are inclusive): with one reference and
one detected event, a match is produced precisely when the time, distance,
magnitude (when both magnitudes are present) and depth differences are
each `≤` the corresponding criterion; any strict excess is rejected. -/
theorem threshold_boundary_inclusive (dist : ℚ → ℚ → ℚ → ℚ → ℚ)
    (mc : MatchingCriteria) (refE detE : Event) :
    (matchEventsWith dist [refE] [detE] mc).summary.matchedPairs = 1 ↔
      (timeDiffOf refE detE ≤ mc.timeWindow ∧
       dist refE.latitude refE.longitude detE.latitude detE.longitude ≤ mc.distanceThreshold ∧
       (∀ md, magnitudeDiffOf refE detE = some md → md ≤ mc.magnitudeDiffThreshold) ∧
       depthDiffOf refE detE ≤ mc.depthDiffThreshold) := by
  rw [← findBestMatch_singleton_isSome dist mc refE detE]
  have hfold : ([refE].enum.foldl (stepRef dist mc [detE]) ⟨[], [], []⟩) =
      stepRef dist mc [detE] ⟨[], [], []⟩ (0, refE) := rfl
  unfold matchEventsWith
  rw [hfold]
  unfold stepRef
  cases hfb : findBestMatch dist mc 0 refE [detE] [] with
  | none => simp [hfb]
  | some c => simp [hfb]

/-- Statistics block produced by `PhaseNetComparisonService.calculateStats`:
mean, population standard deviation, root-mean-square, min, max, count.
`stdDev` and `rms` are square roots and therefore live in `ℝ`. -/
structure Stats where
  mean : ℚ
  stdDev : ℝ
  rms : ℝ
  min : ℚ
  max : ℚ
  count : ℕ

/-- `PhaseNetComparisonService.calculateStats`: `null` on an empty array,
else mean / population standard deviation / RMS (via `reduce` folds over
the values, `Math.sqrt` of the averaged squares) and min / max / count
(`Math.min(...values)` over a non-empty spread is a fold of `min`). -/
noncomputable def calculateStats (values : List ℚ) : Option Stats :=
  match values with
  | [] => none
  | v :: vs =>
      let mean := (v :: vs).foldl (· + ·) 0 / ((v :: vs).length : ℚ)
      let variance :=
        (v :: vs).foldl (fun sum val => sum + (val - mean) ^ 2) 0 / ((v :: vs).length : ℚ)
      let rmsSq := (v :: vs).foldl (fun sum val => sum + val ^ 2) 0 / ((v :: vs).length : ℚ)
      some { mean := mean
             stdDev := Real.sqrt (variance : ℝ)
             rms := Real.sqrt (rmsSq : ℝ)
             min := vs.foldl min v
             max := vs.foldl max v
             count := (v :: vs).length }

/-- The `residualStats` object: per-quantity statistics blocks. -/
structure ResidualStats where
  time : Option Stats
  distance : Option Stats
  magnitude : Option Stats

/-- Output of `calculatePerformanceMetrics`. -/
structure PerformanceMetrics where
  precision : ℚ
  «recall» : ℚ
  f1Score : ℚ
  detectionRate : ℚ
  falseAlarmRate : ℚ
  truePositives : ℕ
  falsePositives : ℕ
  falseNegatives : ℕ
  totalReference : ℕ
  totalDetected : ℕ
  residualStats : Option ResidualStats

/-- `PhaseNetComparisonService.calculatePerformanceMetrics`.  The JavaScript
ratio guards read `x / y || 0`; in this function a zero denominator always
comes with a zero numerator, where JavaScript yields `NaN` and `|| 0` turns
it into `0` — exactly the `a / 0 = 0` convention of rational division used
here.  The magnitude residuals (`filter(m => m.magnitudeDiff !== null)`
then `.map(m => m.magnitudeDiff)`) are embedded as `filterMap`, which keeps
precisely the present values in order. -/
noncomputable def calculatePerformanceMetrics (r : MatchResult) : PerformanceMetrics :=
  let truePositives := r.matchesList.length
  let falsePositives := r.unmatchedDetected.length
  let falseNegatives := r.unmatchedReference.length
  let precision : ℚ := truePositives / ((truePositives : ℚ) + falsePositives)
  let «recall» : ℚ := truePositives / ((truePositives : ℚ) + falseNegatives)
  let f1Score : ℚ := 2 * precision * «recall» / (precision + «recall»)
  let detectionRate := «recall»
  let falseAlarmRate : ℚ := falsePositives / ((truePositives : ℚ) + falsePositives)
  let residualStats : Option ResidualStats :=
    if r.matchesList.length > 0 then
      let timeResiduals := r.matchesList.map (·.timeDiff)
      let distanceResiduals := r.matchesList.map (·.distance)
      let magnitudeResiduals := r.matchesList.filterMap (·.magnitudeDiff)
      some { time := calculateStats timeResiduals
             distance := calculateStats distanceResiduals
             magnitude :=
               if magnitudeResiduals.length > 0 then calculateStats magnitudeResiduals
               else none }
    else none
  { precision := precision
    «recall» := «recall»
    f1Score := f1Score
    detectionRate := detectionRate
    falseAlarmRate := falseAlarmRate
    truePositives := truePositives
    falsePositives := falsePositives
    falseNegatives := falseNegatives
    totalReference := truePositives + falseNegatives
    totalDetected := truePositives + falsePositives
    residualStats := residualStats }

/-- The spec's ratio convention: a ratio is `0`, not NaN and not an error,
whenever its denominator is zero. -/
def specRatio (num den : ℚ) : ℚ := if den = 0 then 0 else num / den

theorem specRatio_eq_div (num den : ℚ) : specRatio num den = num / den := by
  unfold specRatio
  split_ifs with h
  · rw [h, div_zero]
  · rfl

/-- C3: the metrics calculator returns TP = |matches|, FP = |unmatchedDetected|,
FN = |unmatchedReference|, precision = TP/(TP+FP), recall = TP/(TP+FN),
f1 = 2·P·R/(P+R), detectionRate = recall and falseAlarmRate = FP/(TP+FP),
each ratio being 0 (not NaN, not an error) when its denominator is zero. -/
theorem performanceMetrics_formulas (r : MatchResult) :
    (calculatePerformanceMetrics r).truePositives = r.matchesList.length ∧
    (calculatePerformanceMetrics r).falsePositives = r.unmatchedDetected.length ∧
    (calculatePerformanceMetrics r).falseNegatives = r.unmatchedReference.length ∧
    (calculatePerformanceMetrics r).precision =
      specRatio ((calculatePerformanceMetrics r).truePositives : ℚ)
        (((calculatePerformanceMetrics r).truePositives : ℚ) +
          ((calculatePerformanceMetrics r).falsePositives : ℚ)) ∧
    (calculatePerformanceMetrics r).«recall» =
      specRatio ((calculatePerformanceMetrics r).truePositives : ℚ)
        (((calculatePerformanceMetrics r).truePositives : ℚ) +
          ((calculatePerformanceMetrics r).falseNegatives : ℚ)) ∧
    (calculatePerformanceMetrics r).f1Score =
      specRatio (2 * (calculatePerformanceMetrics r).precision * (calculatePerformanceMetrics r).«recall»)
        ((calculatePerformanceMetrics r).precision + (calculatePerformanceMetrics r).«recall») ∧
    (calculatePerformanceMetrics r).detectionRate = (calculatePerformanceMetrics r).«recall» ∧
    (calculatePerformanceMetrics r).falseAlarmRate =
      specRatio ((calculatePerformanceMetrics r).falsePositives : ℚ)
        (((calculatePerformanceMetrics r).truePositives : ℚ) +
          ((calculatePerformanceMetrics r).falsePositives : ℚ)) := by
  refine ⟨rfl, rfl, rfl, ?_, ?_, ?_, rfl, ?_⟩ <;> rw [specRatio_eq_div] <;> rfl

/-- The residual statistics the spec prescribes for a non-empty value list:
mean, population standard deviation (square root of the `N`-divided
variance), root-mean-square, minimum, maximum and count. -/
noncomputable def statsSpec (l : List ℚ) : Stats :=
  { mean := l.sum / (l.length : ℚ)
    stdDev := Real.sqrt (((l.map (fun x => (x - l.sum / (l.length : ℚ)) ^ 2)).sum / (l.length : ℚ) : ℚ))
    rms := Real.sqrt (((l.map (fun x => x ^ 2)).sum / (l.length : ℚ) : ℚ))
    min := l.min?.getD 0
    max := l.max?.getD 0
    count := l.length }

theorem calculateStats_eq_statsSpec (v : ℚ) (vs : List ℚ) :
    calculateStats (v :: vs) = some (statsSpec (v :: vs)) := by
  unfold calculateStats statsSpec
  simp only [List.sum_eq_foldl, List.foldl_map]
  rfl

/-- C7: the residual-statistics block is `null` exactly when there are zero
matches; with at least one match it holds the spec's
{mean, population standard deviation, RMS, min, max, count} over the
matched `timeDiff` and `distance` values, and a magnitude block restricted
to pairs with a present `magnitudeDiff` (`null` when no such pair exists). -/
theorem residualStats_spec (r : MatchResult) :
    ((calculatePerformanceMetrics r).residualStats = none ↔ r.matchesList = []) ∧
    (r.matchesList ≠ [] →
      (calculatePerformanceMetrics r).residualStats = some
        { time := some (statsSpec (r.matchesList.map (·.timeDiff)))
          distance := some (statsSpec (r.matchesList.map (·.distance)))
          magnitude :=
            if r.matchesList.filterMap (·.magnitudeDiff) = [] then none
            else some (statsSpec (r.matchesList.filterMap (·.magnitudeDiff))) }) := by
  constructor
  · unfold calculatePerformanceMetrics
    cases hm : r.matchesList with
    | nil => simp
    | cons c cs => simp [hm]
  · intro hne
    obtain ⟨c, cs, hm⟩ := List.exists_cons_of_ne_nil hne
    unfold calculatePerformanceMetrics
    rw [hm]
    simp only [List.length_cons, List.map_cons, List.filterMap_cons]
    rw [if_pos (Nat.succ_pos cs.length)]
    have htime : calculateStats (c.timeDiff :: cs.map (·.timeDiff)) =
        some (statsSpec (c.timeDiff :: cs.map (·.timeDiff))) :=
      calculateStats_eq_statsSpec _ _
    have hdist : calculateStats (c.distance :: cs.map (·.distance)) =
        some (statsSpec (c.distance :: cs.map (·.distance))) :=
      calculateStats_eq_statsSpec _ _
    cases hmd : c.magnitudeDiff with
    | none =>
      simp only [hmd]
      cases hmg : cs.filterMap (·.magnitudeDiff) with
      | nil => simp [htime, hdist, hmg]
      | cons m ms => simp [htime, hdist, hmg, calculateStats_eq_statsSpec]
    | some m =>
      simp only [hmd]
      simp [htime, hdist, calculateStats_eq_statsSpec]

/-- Concrete single-match candidate used in the metrics witness. -/
def candW : MatchCandidate :=
  { referenceIndex := 0
    detectedIndex := 0
    referenceEvent := evAt 0 none none
    detectedEvent := evAt 0 none none
    timeDiff := 0
    distance := 0
    magnitudeDiff := none
    depthDiff := 0
    matchScore := 0 }

/-- Concrete one-match result used in the metrics witness. -/
def mrW : MatchResult :=
  { matchesList := [candW]
    unmatchedReference := []
    unmatchedDetected := []
    matchingCriteria := defaultCriteria
    summary := ⟨1, 1, 1, 0, 0⟩ }

/-- Witness for `residualStats_spec` on a concrete one-match result. -/
theorem residualStats_spec_witness :
    (calculatePerformanceMetrics mrW).residualStats = some
      { time := some (statsSpec [candW.timeDiff])
        distance := some (statsSpec [candW.distance])
        magnitude := none } := by
  have h := (residualStats_spec mrW).2 (by simp [mrW])
  simpa [mrW, candW] using h

theorem foldl_preserve {α : Type} {β : Type} (P : α → Prop) (step : α → β → α)
    (l : List β) (init : α) (h0 : P init)
    (hstep : ∀ acc b, b ∈ l → P acc → P (step acc b)) : P (l.foldl step init) := by
  induction l generalizing init with
  | nil => exact h0
  | cons x xs ih =>
    exact ih (step init x) (hstep init x (by simp) h0)
      (fun acc b hb hacc => hstep acc b (by simp [hb]) hacc)

/-- Each inner-loop step either keeps the running best unchanged or replaces
it by the candidate built from the current (unclaimed) detected event. -/
theorem stepDet_eq_or (dist : ℚ → ℚ → ℚ → ℚ → ℚ) (mc : MatchingCriteria)
    (refIdx : ℕ) (refEvent : Event) (claimed : List ℕ)
    (best : Option MatchCandidate) (p : ℕ × Event) :
    stepDet dist mc refIdx refEvent claimed best p = best ∨
    (claimed.contains p.1 = false ∧
      stepDet dist mc refIdx refEvent claimed best p =
        some (mkCandidate dist mc refIdx refEvent p)) := by
  unfold stepDet
  by_cases hm : p.1 ∈ claimed
  · left
    have hc : claimed.contains p.1 = true := by
      simpa [List.contains, List.elem_iff] using hm
    simp [hm, hc]
  · have hc' : claimed.contains p.1 = false := by
      cases h : claimed.contains p.1
      · rfl
      · exact absurd (by simpa [List.contains, List.elem_iff] using h) hm
    by_cases h1 : timeDiffOf refEvent p.2 > mc.timeWindow
    · left; simp [hm, hc', h1]
    · by_cases h2 :
        dist refEvent.latitude refEvent.longitude p.2.latitude p.2.longitude >
          mc.distanceThreshold
      · left; simp [hm, hc', h1, h2]
      · cases hmg : magnitudeDiffOf refEvent p.2 with
        | none =>
          by_cases h4 : depthDiffOf refEvent p.2 > mc.depthDiffThreshold
          · left; simp [hm, hc', h1, h2, hmg, h4]
          · cases best with
            | none => right; exact ⟨hc', by simp [hm, hc', h1, h2, hmg, h4]⟩
            | some b =>
              by_cases h5 :
                  (mkCandidate dist mc refIdx refEvent p).matchScore < b.matchScore
              · right; exact ⟨hc', by simp [hm, hc', h1, h2, hmg, h4, h5]⟩
              · left; simp [hm, hc', h1, h2, hmg, h4, h5]
        | some md =>
          by_cases h3 : md > mc.magnitudeDiffThreshold
          · left; simp [hm, hc', h1, h2, hmg, h3]
          · by_cases h4 : depthDiffOf refEvent p.2 > mc.depthDiffThreshold
            · left; simp [hm, hc', h1, h2, hmg, h3, h4]
            · cases best with
              | none => right; exact ⟨hc', by simp [hm, hc', h1, h2, hmg, h3, h4]⟩
              | some b =>
                by_cases h5 :
                    (mkCandidate dist mc refIdx refEvent p).matchScore < b.matchScore
                · right; exact ⟨hc', by simp [hm, hc', h1, h2, hmg, h3, h4, h5]⟩
                · left; simp [hm, hc', h1, h2, hmg, h3, h4, h5]

/-- Whatever the inner loop selects carries the current reference index, an
unclaimed detected index, and a detected index in range. -/
theorem findBestMatch_some (dist : ℚ → ℚ → ℚ → ℚ → ℚ) (mc : MatchingCriteria)
    (refIdx : ℕ) (refEvent : Event) (dets : List Event) (claimed : List ℕ)
    (c : MatchCandidate)
    (h : findBestMatch dist mc refIdx refEvent dets claimed = some c) :
    c.referenceIndex = refIdx ∧ c.detectedIndex ∉ claimed ∧
      c.detectedIndex < dets.length := by
  have main := foldl_preserve
    (fun o : Option MatchCandidate => ∀ c', o = some c' →
      c'.referenceIndex = refIdx ∧ c'.detectedIndex ∉ claimed ∧
        c'.detectedIndex < dets.length)
    (stepDet dist mc refIdx refEvent claimed) dets.enum none
    (by intro c' hc'; cases hc')
    ?_
  · exact main c h
  · intro acc p hp hacc c' hc'
    rcases stepDet_eq_or dist mc refIdx refEvent claimed acc p with heq | ⟨hcl, heq⟩
    · rw [heq] at hc'; exact hacc c' hc'
    · rw [heq] at hc'
      injection hc' with hc'
      subst hc'
      refine ⟨rfl, ?_, ?_⟩
      · intro hmem
        have : claimed.contains p.1 = true := by
          simpa [List.contains, List.elem_iff] using hmem
        rw [this] at hcl; cases hcl
      · have hget := List.mem_enum_iff_getElem?.mp hp
        have := List.getElem?_eq_some.mp hget
        exact this.1

/-- Loop invariant of the outer loop, parameterised by the number of
reference events processed so far. -/
def OuterInv (dets : List Event) (n : ℕ) (st : MatchState) : Prop :=
  st.matchesList.map (·.referenceIndex) = st.matchedRefIndices ∧
  st.matchesList.map (·.detectedIndex) = st.matchedDetIndices ∧
  st.matchedRefIndices.Pairwise (· < ·) ∧
  (∀ i ∈ st.matchedRefIndices, i < n) ∧
  st.matchedDetIndices.Nodup ∧
  (∀ j ∈ st.matchedDetIndices, j < dets.length)

theorem stepRef_inv (dist : ℚ → ℚ → ℚ → ℚ → ℚ) (mc : MatchingCriteria)
    (dets : List Event) (k : ℕ) (x : Event) (st : MatchState)
    (h : OuterInv dets k st) : OuterInv dets (k + 1) (stepRef dist mc dets st (k, x)) := by
  obtain ⟨hmr, hmd, hpw, hrb, hnd, hdb⟩ := h
  unfold stepRef
  cases hfb : findBestMatch dist mc k x dets st.matchedDetIndices with
  | none =>
    exact ⟨hmr, hmd, hpw, fun i hi => Nat.lt_succ_of_lt (hrb i hi), hnd, hdb⟩
  | some c =>
    obtain ⟨hcr, hcd, hcl⟩ := findBestMatch_some dist mc k x dets _ c hfb
    refine ⟨?_, ?_, ?_, ?_, ?_, ?_⟩
    · simp [hmr, hcr]
    · simp [hmd]
    · rw [List.pairwise_append]
      exact ⟨hpw, by simp, fun a ha b hb => by
        simp only [List.mem_singleton] at hb; subst hb; exact hrb a ha⟩
    · intro i hi
      rcases List.mem_append.mp hi with hi | hi
      · exact Nat.lt_succ_of_lt (hrb i hi)
      · simp only [List.mem_singleton] at hi; omega
    · rw [List.nodup_append]
      exact ⟨hnd, by simp, by
        intro a ha hb
        simp only [List.mem_singleton] at hb; subst hb; exact hcd ha⟩
    · intro j hj
      rcases List.mem_append.mp hj with hj | hj
      · exact hdb j hj
      · simp only [List.mem_singleton] at hj; subst hj; exact hcl

theorem outer_fold_inv (dist : ℚ → ℚ → ℚ → ℚ → ℚ) (mc : MatchingCriteria)
    (dets : List Event) : ∀ (l : List Event) (k : ℕ) (st : MatchState),
    OuterInv dets k st →
    OuterInv dets (k + l.length) ((List.enumFrom k l).foldl (stepRef dist mc dets) st) := by
  intro l
  induction l with
  | nil => intro k st h; simpa using h
  | cons x xs ih =>
    intro k st h
    rw [List.enumFrom_cons, List.foldl_cons]
    have h1 := stepRef_inv dist mc dets k x st h
    have h2 := ih (k + 1) _ h1
    have : k + 1 + xs.length = k + (x :: xs).length := by
      simp [Nat.add_comm, Nat.add_assoc, Nat.add_left_comm]
    rwa [this] at h2

/-- Counting the survivors of the index filter: removing a duplicate-free
set `S` of in-range indices from an enumerated list leaves `length - |S|`
entries. -/
theorem length_filter_not_contains {α : Type} (l : List α) (S : List ℕ)
    (hnd : S.Nodup) (hb : ∀ i ∈ S, i < l.length) :
    S.length ≤ l.length ∧
    (l.enum.filter (fun p => ! S.contains p.1)).length = l.length - S.length := by
  have hpos : (l.enum.filter (fun p : ℕ × α => S.contains p.1)).length = S.length := by
    rw [← List.countP_eq_length_filter]
    have hcp : List.countP (fun p : ℕ × α => S.contains p.1) l.enum =
        List.countP (fun i : ℕ => S.contains i) (l.enum.map Prod.fst) := by
      rw [List.countP_map]; rfl
    rw [hcp, List.enum_map_fst, List.countP_eq_length_filter]
    have hperm : ((List.range l.length).filter (fun i => S.contains i)).Perm S := by
      rw [List.perm_ext_iff_of_nodup (List.Nodup.filter _ (List.nodup_range _)) hnd]
      intro a
      simp only [List.mem_filter, List.mem_range]
      constructor
      · rintro ⟨-, h⟩
        simpa [List.contains, List.elem_iff] using h
      · intro h
        exact ⟨hb a h, by simpa [List.contains, List.elem_iff] using h⟩
    exact hperm.length_eq
  have htotal := List.length_eq_length_filter_add (l := l.enum)
      (fun p : ℕ × α => S.contains p.1)
  have henum : l.enum.length = l.length := List.enum_length
  have hle : (l.enum.filter (fun p : ℕ × α => S.contains p.1)).length ≤ l.enum.length :=
    List.length_filter_le _ _
  constructor
  · omega
  · omega

/-- C2: in every matcher output each detected index and each reference
index appears in at most one matched pair, and the matched and unmatched
counts partition both input lists. -/
theorem matcher_partition_invariant (dist : ℚ → ℚ → ℚ → ℚ → ℚ)
    (refs dets : List Event) (mc : MatchingCriteria) :
    ((matchEventsWith dist refs dets mc).matchesList.map (·.detectedIndex)).Nodup ∧
    ((matchEventsWith dist refs dets mc).matchesList.map (·.referenceIndex)).Nodup ∧
    (matchEventsWith dist refs dets mc).matchesList.length +
      (matchEventsWith dist refs dets mc).unmatchedReference.length = refs.length ∧
    (matchEventsWith dist refs dets mc).matchesList.length +
      (matchEventsWith dist refs dets mc).unmatchedDetected.length = dets.length := by
  have hinv := outer_fold_inv dist mc dets refs 0 ⟨[], [], []⟩
    ⟨rfl, rfl, List.Pairwise.nil, by simp, List.nodup_nil, by simp⟩
  rw [show List.enumFrom 0 refs = refs.enum from rfl] at hinv
  simp only [Nat.zero_add] at hinv
  obtain ⟨hmr, hmd, hpw, hrb, hnd, hdb⟩ := hinv
  set F := refs.enum.foldl (stepRef dist mc dets) ⟨[], [], []⟩ with hF
  have e1 : (matchEventsWith dist refs dets mc).matchesList = F.matchesList := rfl
  have e2 : (matchEventsWith dist refs dets mc).unmatchedReference =
      (refs.enum.filter (fun p => ! F.matchedRefIndices.contains p.1)).map Prod.snd := rfl
  have e3 : (matchEventsWith dist refs dets mc).unmatchedDetected =
      (dets.enum.filter (fun p => ! F.matchedDetIndices.contains p.1)).map Prod.snd := rfl
  have hndR : F.matchedRefIndices.Nodup := hpw.imp Nat.ne_of_lt
  obtain ⟨hleR, hcntR⟩ := length_filter_not_contains refs F.matchedRefIndices hndR hrb
  obtain ⟨hleD, hcntD⟩ := length_filter_not_contains dets F.matchedDetIndices hnd hdb
  have hlenR : F.matchesList.length = F.matchedRefIndices.length := by
    rw [← hmr, List.length_map]
  have hlenD : F.matchesList.length = F.matchedDetIndices.length := by
    rw [← hmd, List.length_map]
  refine ⟨?_, ?_, ?_, ?_⟩
  · rw [e1, hmd]; exact hnd
  · rw [e1, hmr]; exact hndR
  · rw [e1, e2, List.length_map, hcntR]; omega
  · rw [e1, e3, List.length_map, hcntD]; omega

/-- The spec's depth handling in the reference algorithm of the claim:
only a *missing* depth is treated as 10.0 km; a present value (zero
included) is used as given. -/
def specDepth : Option ℚ → ℚ
  | none => 10.0
  | some d => d

/-- The claim's hard-filter disjunction (spec §4.3 step 3): a candidate is
rejected iff `|Δtime| > timeWindow`, or `distance > distanceThreshold`, or
both magnitudes are present and `|Δmagnitude| > magnitudeDiffThreshold`,
or `|Δdepth| > depthDiffThreshold`; the depth coercion is a parameter so
that the spec's wording (`specDepth`) and the code's coercion (`effDepth`)
can be compared. -/
def specRejected (dep : Option ℚ → ℚ) (dist : ℚ → ℚ → ℚ → ℚ → ℚ)
    (mc : MatchingCriteria) (refEvent detEvent : Event) : Bool :=
  (timeDiffOf refEvent detEvent > mc.timeWindow : Bool) ||
  (dist refEvent.latitude refEvent.longitude detEvent.latitude detEvent.longitude >
    mc.distanceThreshold : Bool) ||
  (match refEvent.magnitude, detEvent.magnitude with
   | some rm, some dm => (|rm - dm| > mc.magnitudeDiffThreshold : Bool)
   | _, _ => false) ||
  (|dep refEvent.depth_km - dep detEvent.depth_km| > mc.depthDiffThreshold : Bool)

/-- The MatchCandidate the reference algorithm records: raw differences and
the §4.2 score (weights 0.4 / 0.4 / 0.15-or-0 / 0.05). -/
def specMkCandidate (dep : Option ℚ → ℚ) (dist : ℚ → ℚ → ℚ → ℚ → ℚ)
    (mc : MatchingCriteria) (refIdx : ℕ) (refEvent : Event)
    (p : ℕ × Event) : MatchCandidate :=
  { referenceIndex := refIdx
    detectedIndex := p.1
    referenceEvent := refEvent
    detectedEvent := p.2
    timeDiff := timeDiffOf refEvent p.2
    distance := dist refEvent.latitude refEvent.longitude p.2.latitude p.2.longitude
    magnitudeDiff := magnitudeDiffOf refEvent p.2
    depthDiff := |dep refEvent.depth_km - dep p.2.depth_km|
    matchScore :=
      (timeDiffOf refEvent p.2 / mc.timeWindow) * 0.4 +
      (dist refEvent.latitude refEvent.longitude p.2.latitude p.2.longitude /
        mc.distanceThreshold) * 0.4 +
      (match magnitudeDiffOf refEvent p.2 with
       | some md => (md / mc.magnitudeDiffThreshold) * 0.15
       | none => 0) +
      (|dep refEvent.depth_km - dep p.2.depth_km| / mc.depthDiffThreshold) * 0.05 }

/-- "Among survivors the minimum-score candidate, ties resolved in favour
of the earlier index": the first list element whose value under `f` is a
lower bound of all values. -/
def specSelect {α : Type} (f : α → ℚ) (l : List α) : Option α :=
  l.find? (fun a => l.all (fun b => f a ≤ f b))

/-- The reference algorithm's treatment of one reference event: filter the
unclaimed candidates through the hard filters, then pick the minimum-score
survivor (earlier index on ties). -/
def specBestFor (dep : Option ℚ → ℚ) (dist : ℚ → ℚ → ℚ → ℚ → ℚ)
    (mc : MatchingCriteria) (dets : List Event) (claimed : List ℕ)
    (refIdx : ℕ) (refEvent : Event) : Option MatchCandidate :=
  specSelect (·.matchScore)
    ((dets.enum.filter
        (fun p => ! claimed.contains p.1 && ! specRejected dep dist mc refEvent p.2)).map
      (specMkCandidate dep dist mc refIdx refEvent))

/-- The reference greedy loop: reference events in their given order,
irrevocable claims, unmatched reference events consume no candidate. -/
def specMatchLoop (dep : Option ℚ → ℚ) (dist : ℚ → ℚ → ℚ → ℚ → ℚ)
    (mc : MatchingCriteria) (dets : List Event) :
    List (ℕ × Event) → List ℕ → List MatchCandidate
  | [], _ => []
  | (i, r) :: rest, claimed =>
    match specBestFor dep dist mc dets claimed i r with
    | none => specMatchLoop dep dist mc dets rest claimed
    | some c => c :: specMatchLoop dep dist mc dets rest (claimed ++ [c.detectedIndex])

/-- The claim's reference greedy algorithm end to end, producing the same
result shape as the matcher. -/
def specGreedy (dep : Option ℚ → ℚ) (dist : ℚ → ℚ → ℚ → ℚ → ℚ)
    (refs dets : List Event) (mc : MatchingCriteria) : MatchResult :=
  let ms := specMatchLoop dep dist mc dets refs.enum []
  let refIdxs := ms.map (·.referenceIndex)
  let detIdxs := ms.map (·.detectedIndex)
  let unmatchedReference := (refs.enum.filter (fun p => ! refIdxs.contains p.1)).map Prod.snd
  let unmatchedDetected := (dets.enum.filter (fun p => ! detIdxs.contains p.1)).map Prod.snd
  { matchesList := ms
    unmatchedReference := unmatchedReference
    unmatchedDetected := unmatchedDetected
    matchingCriteria := mc
    summary :=
      { totalReference := refs.length
        totalDetected := dets.length
        matchedPairs := ms.length
        unmatchedReference := unmatchedReference.length
        unmatchedDetected := unmatchedDetected.length } }

theorem specMkCandidate_effDepth (dist : ℚ → ℚ → ℚ → ℚ → ℚ) (mc : MatchingCriteria)
    (refIdx : ℕ) (refEvent : Event) (p : ℕ × Event) :
    specMkCandidate effDepth dist mc refIdx refEvent p = mkCandidate dist mc refIdx refEvent p := rfl

/-- The source's running-best update: keep the new candidate only on a
strictly smaller score (`bestScore` starts at `Infinity`). -/
def bestStep (best : Option MatchCandidate) (c : MatchCandidate) : Option MatchCandidate :=
  match best with
  | none => some c
  | some b => if c.matchScore < b.matchScore then some c else best

theorem specSelect_cons_of_lt {α : Type} (f : α → ℚ) (b x : α) (xs : List α)
    (h : f x < f b) : specSelect f (b :: x :: xs) = specSelect f (x :: xs) := by
  unfold specSelect
  have hpred : ∀ a : α,
      ((b :: x :: xs).all (fun c => f a ≤ f c)) = ((x :: xs).all (fun c => f a ≤ f c)) := by
    intro a
    simp only [List.all_cons]
    by_cases hax : f a ≤ f x
    · have hab : f a ≤ f b := le_trans hax (le_of_lt h)
      simp [hax, hab]
    · simp [hax]
  have hPb : ((b :: x :: xs).all (fun c => f b ≤ f c)) = false := by
    have hbx : ¬ f b ≤ f x := not_le.mpr h
    simp only [List.all_cons]
    simp [hbx]
  rw [List.find?_cons_of_neg _ (by simp [hPb]), funext hpred]

theorem specSelect_cons_of_le {α : Type} (f : α → ℚ) (b x : α) (xs : List α)
    (h : f b ≤ f x) : specSelect f (b :: x :: xs) = specSelect f (b :: xs) := by
  unfold specSelect
  have hpred : ∀ a : α,
      ((b :: x :: xs).all (fun c => f a ≤ f c)) = ((b :: xs).all (fun c => f a ≤ f c)) := by
    intro a
    simp only [List.all_cons]
    by_cases hab : f a ≤ f b
    · have hax : f a ≤ f x := le_trans hab h
      simp [hab, hax]
    · simp [hab]
  by_cases hPb : ((b :: x :: xs).all (fun c => f b ≤ f c)) = true
  · have hQb : ((b :: xs).all (fun c => f b ≤ f c)) = true := by
      rw [← hpred b]; exact hPb
    rw [List.find?_cons_of_pos _ (by exact hPb), List.find?_cons_of_pos _ (by exact hQb)]
  · have hQb : ¬ ((b :: xs).all (fun c => f b ≤ f c)) = true := by
      rw [← hpred b]; exact hPb
    have hPx : ¬ ((b :: x :: xs).all (fun c => f x ≤ f c)) = true := by
      intro hx
      simp only [List.all_cons, Bool.and_eq_true, decide_eq_true_eq] at hx
      obtain ⟨hxb, -, hxall⟩ := hx
      apply hPb
      simp only [List.all_cons, Bool.and_eq_true, decide_eq_true_eq]
      have hfeq : f b = f x := le_antisymm h hxb
      refine ⟨le_refl _, h, ?_⟩
      rw [hfeq]
      exact hxall
    rw [List.find?_cons_of_neg _ (by exact hPb)]
    rw [List.find?_cons_of_neg _ (by exact hPx)]
    rw [List.find?_cons_of_neg _ (by exact hQb)]
    rw [funext hpred]

theorem foldl_bestStep_some (xs : List MatchCandidate) :
    ∀ b : MatchCandidate, xs.foldl bestStep (some b) =
      specSelect (·.matchScore) (b :: xs) := by
  induction xs with
  | nil =>
    intro b
    unfold specSelect
    simp [List.find?_cons_of_pos]
  | cons x xs ih =>
    intro b
    rw [List.foldl_cons]
    by_cases h : x.matchScore < b.matchScore
    · have hb : bestStep (some b) x = some x := by simp [bestStep, h]
      rw [hb, ih x, specSelect_cons_of_lt _ b x xs h]
    · have hb : bestStep (some b) x = some b := by simp [bestStep, h]
      rw [hb, ih b, specSelect_cons_of_le _ b x xs (not_lt.mp h)]

theorem foldl_bestStep_none (xs : List MatchCandidate) :
    xs.foldl bestStep none = specSelect (·.matchScore) xs := by
  cases xs with
  | nil => rfl
  | cons x xs =>
    rw [List.foldl_cons]
    exact foldl_bestStep_some xs x

/-- The inner-loop body is the filter followed by the running-minimum
update: a claimed or rejected candidate leaves the best unchanged. -/
theorem stepDet_eq_bestStep (dist : ℚ → ℚ → ℚ → ℚ → ℚ) (mc : MatchingCriteria)
    (refIdx : ℕ) (refEvent : Event) (claimed : List ℕ)
    (best : Option MatchCandidate) (p : ℕ × Event) :
    stepDet dist mc refIdx refEvent claimed best p =
      if (! claimed.contains p.1 && ! specRejected effDepth dist mc refEvent p.2) = true
      then bestStep best (mkCandidate dist mc refIdx refEvent p) else best := by
  unfold stepDet specRejected bestStep
  by_cases hm : p.1 ∈ claimed
  · have hc : claimed.contains p.1 = true := by
      simpa [List.contains, List.elem_iff] using hm
    simp [hm, hc]
  · have hc' : claimed.contains p.1 = false := by
      cases h : claimed.contains p.1
      · rfl
      · exact absurd (by simpa [List.contains, List.elem_iff] using h) hm
    by_cases h1 : timeDiffOf refEvent p.2 > mc.timeWindow
    · simp [hm, hc', h1]
    · by_cases h2 :
        dist refEvent.latitude refEvent.longitude p.2.latitude p.2.longitude >
          mc.distanceThreshold
      · simp [hm, hc', h1, h2]
      · cases hrm : refEvent.magnitude with
        | none =>
          by_cases h4 : |effDepth refEvent.depth_km - effDepth p.2.depth_km| >
              mc.depthDiffThreshold
          · simp [hm, hc', h1, h2, hrm, magnitudeDiffOf, depthDiffOf, h4]
          · simp [hm, hc', h1, h2, hrm, magnitudeDiffOf, depthDiffOf, h4]
        | some rm =>
          cases hdm : p.2.magnitude with
          | none =>
            by_cases h4 : |effDepth refEvent.depth_km - effDepth p.2.depth_km| >
                mc.depthDiffThreshold
            · simp [hm, hc', h1, h2, hrm, hdm, magnitudeDiffOf, depthDiffOf, h4]
            · simp [hm, hc', h1, h2, hrm, hdm, magnitudeDiffOf, depthDiffOf, h4]
          | some dm =>
            by_cases h3 : |rm - dm| > mc.magnitudeDiffThreshold
            · simp [hm, hc', h1, h2, hrm, hdm, magnitudeDiffOf, depthDiffOf, h3]
            · by_cases h4 : |effDepth refEvent.depth_km - effDepth p.2.depth_km| >
                  mc.depthDiffThreshold
              · simp [hm, hc', h1, h2, hrm, hdm, magnitudeDiffOf, depthDiffOf, h3, h4]
              · simp [hm, hc', h1, h2, hrm, hdm, magnitudeDiffOf, depthDiffOf, h3, h4]

/-- Fusing the skip logic of the inner loop into an explicit filter. -/
theorem foldl_stepDet_eq (dist : ℚ → ℚ → ℚ → ℚ → ℚ) (mc : MatchingCriteria)
    (refIdx : ℕ) (refEvent : Event) (claimed : List ℕ) :
    ∀ (l : List (ℕ × Event)) (best : Option MatchCandidate),
    l.foldl (stepDet dist mc refIdx refEvent claimed) best =
      ((l.filter
          (fun p => ! claimed.contains p.1 && ! specRejected effDepth dist mc refEvent p.2)).map
        (mkCandidate dist mc refIdx refEvent)).foldl bestStep best := by
  intro l
  induction l with
  | nil => intro best; rfl
  | cons x xs ih =>
    intro best
    rw [List.foldl_cons, stepDet_eq_bestStep]
    by_cases hx :
        (! claimed.contains x.1 && ! specRejected effDepth dist mc refEvent x.2) = true
    · rw [if_pos hx, List.filter_cons_of_pos (by exact hx), List.map_cons, List.foldl_cons]
      exact ih _
    · rw [if_neg hx, List.filter_cons_of_neg (by exact hx)]
      exact ih best

/-- The source's inner loop computes exactly the reference algorithm's
choice for one reference event (with the code's depth coercion). -/
theorem findBestMatch_eq_specBestFor (dist : ℚ → ℚ → ℚ → ℚ → ℚ)
    (mc : MatchingCriteria) (dets : List Event) (claimed : List ℕ)
    (refIdx : ℕ) (refEvent : Event) :
    findBestMatch dist mc refIdx refEvent dets claimed =
      specBestFor effDepth dist mc dets claimed refIdx refEvent := by
  unfold findBestMatch specBestFor
  rw [foldl_stepDet_eq, foldl_bestStep_none,
    funext (specMkCandidate_effDepth dist mc refIdx refEvent)]

theorem specMatchLoop_cons (dep : Option ℚ → ℚ) (dist : ℚ → ℚ → ℚ → ℚ → ℚ)
    (mc : MatchingCriteria) (dets : List Event) (i : ℕ) (r : Event)
    (rest : List (ℕ × Event)) (claimed : List ℕ) :
    specMatchLoop dep dist mc dets ((i, r) :: rest) claimed =
      match specBestFor dep dist mc dets claimed i r with
      | none => specMatchLoop dep dist mc dets rest claimed
      | some c => c :: specMatchLoop dep dist mc dets rest (claimed ++ [c.detectedIndex]) := rfl

theorem specBestFor_referenceIndex (dep : Option ℚ → ℚ) (dist : ℚ → ℚ → ℚ → ℚ → ℚ)
    (mc : MatchingCriteria) (dets : List Event) (claimed : List ℕ)
    (i : ℕ) (r : Event) (c : MatchCandidate)
    (h : specBestFor dep dist mc dets claimed i r = some c) : c.referenceIndex = i := by
  unfold specBestFor specSelect at h
  have hmem := List.mem_of_find?_eq_some h
  obtain ⟨p, hp, rfl⟩ := List.mem_map.mp hmem
  rfl

/-- The source's outer loop extends its state exactly by the reference
algorithm's greedy loop run on the remaining reference events, with the
already-claimed candidate indices carried over. -/
theorem foldl_stepRef_eq (dist : ℚ → ℚ → ℚ → ℚ → ℚ) (mc : MatchingCriteria)
    (dets : List Event) :
    ∀ (l : List (ℕ × Event)) (st : MatchState),
    l.foldl (stepRef dist mc dets) st =
      { matchesList :=
          st.matchesList ++ specMatchLoop effDepth dist mc dets l st.matchedDetIndices
        matchedRefIndices := st.matchedRefIndices ++
          (specMatchLoop effDepth dist mc dets l st.matchedDetIndices).map (·.referenceIndex)
        matchedDetIndices := st.matchedDetIndices ++
          (specMatchLoop effDepth dist mc dets l st.matchedDetIndices).map (·.detectedIndex) } := by
  intro l
  induction l with
  | nil => intro st; simp [specMatchLoop]
  | cons x xs ih =>
    intro st
    obtain ⟨i, r⟩ := x
    rw [List.foldl_cons]
    cases hb : specBestFor effDepth dist mc dets st.matchedDetIndices i r with
    | none =>
      have h1 : stepRef dist mc dets st (i, r) = st := by
        unfold stepRef
        rw [findBestMatch_eq_specBestFor, hb]
      have h2 : specMatchLoop effDepth dist mc dets ((i, r) :: xs) st.matchedDetIndices =
          specMatchLoop effDepth dist mc dets xs st.matchedDetIndices := by
        rw [specMatchLoop_cons, hb]
      rw [h1, h2]
      exact ih st
    | some c =>
      have h1 : stepRef dist mc dets st (i, r) =
          ⟨st.matchesList ++ [c], st.matchedRefIndices ++ [i],
            st.matchedDetIndices ++ [c.detectedIndex]⟩ := by
        unfold stepRef
        rw [findBestMatch_eq_specBestFor, hb]
      have h2 : specMatchLoop effDepth dist mc dets ((i, r) :: xs) st.matchedDetIndices =
          c :: specMatchLoop effDepth dist mc dets xs
            (st.matchedDetIndices ++ [c.detectedIndex]) := by
        rw [specMatchLoop_cons, hb]
      have hci : c.referenceIndex = i :=
        specBestFor_referenceIndex effDepth dist mc dets st.matchedDetIndices i r c hb
      rw [h1, h2, ih]
      simp [List.append_assoc, hci]

/-- C1 (amended): the matcher's output equals the reference greedy
algorithm of the claim once the reference algorithm's depth coercion is
taken to be the code's `depth_km || 10.0` (zero-or-missing depth becomes
10.0 km), for every pair of event lists, every criteria value and every
distance function. -/
theorem matcher_eq_reference_greedy (dist : ℚ → ℚ → ℚ → ℚ → ℚ)
    (refs dets : List Event) (mc : MatchingCriteria) :
    matchEventsWith dist refs dets mc = specGreedy effDepth dist refs dets mc := by
  unfold matchEventsWith specGreedy
  have h := foldl_stepRef_eq dist mc dets refs.enum ⟨[], [], []⟩
  simp only [List.nil_append] at h
  rw [h]

/-- C1 counterexample: with a reference event of depth exactly 0 km and a
detected event of depth 60 km (same location and time, default criteria,
`depthDiffThreshold = 50`), the code coerces depth 0 to 10 km and matches
(|10 − 60| = 50 ≤ 50), while the claim's reference algorithm — which
treats only *missing* depth as 10.0 km — rejects (|0 − 60| = 60 > 50), so
the outputs differ. -/
theorem matcher_ne_reference_greedy_on_zero_depth :
    matchEventsWith distZero [evAt 0 (some 0) none] [evAt 0 (some 60) none] defaultCriteria ≠
      specGreedy specDepth distZero [evAt 0 (some 0) none] [evAt 0 (some 60) none]
        defaultCriteria := by
  have h1 : (matchEventsWith distZero [evAt 0 (some 0) none] [evAt 0 (some 60) none]
      defaultCriteria).summary.matchedPairs = 1 := by
    norm_num [matchEventsWith, defaultCriteria, stepRef, findBestMatch, stepDet, List.enum,
      List.enumFrom, timeDiffOf, magnitudeDiffOf, depthDiffOf, effDepth, mkCandidate,
      calculateMatchScore, distZero, evAt]
  have h2 : (specGreedy specDepth distZero [evAt 0 (some 0) none] [evAt 0 (some 60) none]
      defaultCriteria).summary.matchedPairs = 0 := by
    norm_num [specGreedy, specMatchLoop, specBestFor, specSelect, specRejected, specDepth,
      specMkCandidate, List.enum, List.enumFrom, timeDiffOf, magnitudeDiffOf, distZero, evAt,
      defaultCriteria]
  intro heq
  rw [heq, h2] at h1
  exact absurd h1 (by norm_num)

/-!
## NaN-aware embedding for non-finite inputs

JavaScript numbers include NaN; in this fragment `none : Option ℚ` plays
the role of NaN (or of `getTime()` of an unparseable time string), with the
JavaScript semantics that every `<`/`>` comparison involving NaN is false
and arithmetic propagates NaN.  `EventN.magnitude` distinguishes an absent
field (`none`, which the source's `!== null && !== undefined` check
filters out) from a present NaN value (`some none`, which passes that
check).  `depth_km` needs no NaN layer: `depth_km || 10.0` coerces every
falsy value — absent, null, NaN and 0 alike — to 10.0, so `none` stands
for all of absent/null/NaN. -/

/-- An event whose required numeric fields may be non-finite. -/
structure EventN where
  time : Option ℚ
  latitude : Option ℚ
  longitude : Option ℚ
  depth_km : Option ℚ
  magnitude : Option (Option ℚ)
deriving DecidableEq, Repr

/-- `Math.abs(a - b)` with NaN propagation. -/
def nAbsSub : Option ℚ → Option ℚ → Option ℚ
  | some a, some b => some |a - b|
  | _, _ => none

/-- `x > t` for a possibly-NaN `x`: false when `x` is NaN. -/
def ngtB (a : Option ℚ) (t : ℚ) : Bool :=
  match a with
  | some x => decide (x > t)
  | none => false

/-- Addition with NaN propagation. -/
def nAdd : Option ℚ → Option ℚ → Option ℚ
  | some a, some b => some (a + b)
  | _, _ => none

/-- `calculateMatchScore` on possibly-NaN differences: a NaN component
makes the whole weighted sum NaN. -/
def calculateMatchScoreN (timeDiff distance : Option ℚ)
    (magnitudeDiff : Option (Option ℚ)) (depthDiff : ℚ)
    (criteria : MatchingCriteria) : Option ℚ :=
  let timeScore := timeDiff.map (fun t => t / criteria.timeWindow * 0.4)
  let distanceScore := distance.map (fun d => d / criteria.distanceThreshold * 0.4)
  let magnitudeScore : Option ℚ :=
    match magnitudeDiff with
    | some v => v.map (fun m => m / criteria.magnitudeDiffThreshold * 0.15)
    | none => some 0
  let depthScore : Option ℚ := some (depthDiff / criteria.depthDiffThreshold * 0.05)
  nAdd (nAdd (nAdd timeScore distanceScore) magnitudeScore) depthScore

/-- `timeDiff` in seconds; NaN when either `getTime()` is NaN. -/
def timeDiffN (refEvent detEvent : EventN) : Option ℚ :=
  (nAbsSub refEvent.time detEvent.time).map (· / 1000)

/-- `magnitudeDiff`: `null` unless both magnitudes pass the
`!== null && !== undefined` check; a present NaN passes the check and
yields a NaN difference. -/
def magnitudeDiffN (refEvent detEvent : EventN) : Option (Option ℚ) :=
  match refEvent.magnitude, detEvent.magnitude with
  | some rm, some dm => some (nAbsSub rm dm)
  | _, _ => none

/-- `depthDiff`: always finite thanks to the falsy coercion. -/
def depthDiffN (refEvent detEvent : EventN) : ℚ :=
  |effDepth refEvent.depth_km - effDepth detEvent.depth_km|

/-- A match record in the NaN-aware embedding. -/
structure MatchCandidateN where
  referenceIndex : ℕ
  detectedIndex : ℕ
  referenceEvent : EventN
  detectedEvent : EventN
  timeDiff : Option ℚ
  distance : Option ℚ
  magnitudeDiff : Option (Option ℚ)
  depthDiff : ℚ
  matchScore : Option ℚ
deriving DecidableEq, Repr

/-- The matcher result in the NaN-aware embedding. -/
structure MatchResultN where
  matchesList : List MatchCandidateN
  unmatchedReference : List EventN
  unmatchedDetected : List EventN
  matchingCriteria : MatchingCriteria
  summary : MatchSummary
deriving DecidableEq, Repr

/-- `bestMatch` record construction. -/
def mkCandidateN (dist : Option ℚ → Option ℚ → Option ℚ → Option ℚ → Option ℚ)
    (mc : MatchingCriteria) (refIdx : ℕ) (refEvent : EventN)
    (p : ℕ × EventN) : MatchCandidateN :=
  let timeDiff := timeDiffN refEvent p.2
  let distance := dist refEvent.latitude refEvent.longitude p.2.latitude p.2.longitude
  let magnitudeDiff := magnitudeDiffN refEvent p.2
  let depthDiff := depthDiffN refEvent p.2
  { referenceIndex := refIdx
    detectedIndex := p.1
    referenceEvent := refEvent
    detectedEvent := p.2
    timeDiff := timeDiff
    distance := distance
    magnitudeDiff := magnitudeDiff
    depthDiff := depthDiff
    matchScore := calculateMatchScoreN timeDiff distance magnitudeDiff depthDiff mc }

/-- Inner-loop body with NaN semantics: a NaN difference never exceeds a
threshold (`NaN > t` is false), so NaN events pass every filter; a NaN
score never wins the `score < bestScore` test (`bestScore` starts at
`Infinity`, and `NaN < Infinity` is false, so with no best yet a candidate
is kept iff its score is a number). -/
def stepDetN (dist : Option ℚ → Option ℚ → Option ℚ → Option ℚ → Option ℚ)
    (mc : MatchingCriteria) (refIdx : ℕ) (refEvent : EventN) (claimed : List ℕ)
    (best : Option MatchCandidateN) (p : ℕ × EventN) : Option MatchCandidateN :=
  if claimed.contains p.1 then best
  else
    let timeDiff := timeDiffN refEvent p.2
    if ngtB timeDiff mc.timeWindow then best
    else
      let distance := dist refEvent.latitude refEvent.longitude p.2.latitude p.2.longitude
      if ngtB distance mc.distanceThreshold then best
      else
        let magnitudeDiff := magnitudeDiffN refEvent p.2
        if (match magnitudeDiff with
            | some v => ngtB v mc.magnitudeDiffThreshold
            | none => false) then best
        else
          let depthDiff := depthDiffN refEvent p.2
          if depthDiff > mc.depthDiffThreshold then best
          else
            let cand := mkCandidateN dist mc refIdx refEvent p
            match best with
            | none => if cand.matchScore.isSome then some cand else best
            | some b =>
                if (match cand.matchScore, b.matchScore with
                    | some s, some bs => decide (s < bs)
                    | _, _ => false) then some cand else best

/-- Inner loop over the detected events. -/
def findBestMatchN (dist : Option ℚ → Option ℚ → Option ℚ → Option ℚ → Option ℚ)
    (mc : MatchingCriteria) (refIdx : ℕ) (refEvent : EventN)
    (dets : List EventN) (claimed : List ℕ) : Option MatchCandidateN :=
  dets.enum.foldl (stepDetN dist mc refIdx refEvent claimed) none

/-- Outer-loop state. -/
structure MatchStateN where
  matchesList : List MatchCandidateN
  matchedRefIndices : List ℕ
  matchedDetIndices : List ℕ
deriving DecidableEq, Repr

/-- Outer-loop body. -/
def stepRefN (dist : Option ℚ → Option ℚ → Option ℚ → Option ℚ → Option ℚ)
    (mc : MatchingCriteria) (dets : List EventN) (st : MatchStateN)
    (p : ℕ × EventN) : MatchStateN :=
  match findBestMatchN dist mc p.1 p.2 dets st.matchedDetIndices with
  | none => st
  | some best =>
      { matchesList := st.matchesList ++ [best]
        matchedRefIndices := st.matchedRefIndices ++ [p.1]
        matchedDetIndices := st.matchedDetIndices ++ [best.detectedIndex] }

/-- `matchEvents` with NaN-aware numbers: note that the function is total —
the source has no validation and no throw on non-finite fields, so there is
no error outcome to model. -/
def matchEventsNaN (dist : Option ℚ → Option ℚ → Option ℚ → Option ℚ → Option ℚ)
    (referenceEvents detectedEvents : List EventN)
    (mc : MatchingCriteria) : MatchResultN :=
  let final := referenceEvents.enum.foldl (stepRefN dist mc detectedEvents) ⟨[], [], []⟩
  let unmatchedReference :=
    (referenceEvents.enum.filter (fun p => ! final.matchedRefIndices.contains p.1)).map Prod.snd
  let unmatchedDetected :=
    (detectedEvents.enum.filter (fun p => ! final.matchedDetIndices.contains p.1)).map Prod.snd
  { matchesList := final.matchesList
    unmatchedReference := unmatchedReference
    unmatchedDetected := unmatchedDetected
    matchingCriteria := mc
    summary :=
      { totalReference := referenceEvents.length
        totalDetected := detectedEvents.length
        matchedPairs := final.matchesList.length
        unmatchedReference := unmatchedReference.length
        unmatchedDetected := unmatchedDetected.length } }

/-- Modelled from the spec: the external haversine distance on possibly-NaN
coordinates — 0 for the coincident finite points the concrete scenario
uses, NaN as soon as any input is NaN. -/
def distZeroN : Option ℚ → Option ℚ → Option ℚ → Option ℚ → Option ℚ :=
  fun la lo la' lo' =>
    match la, lo, la', lo' with
    | some _, some _, some _, some _ => some 0
    | _, _, _, _ => none

/-- A fully finite event for the NaN scenarios. -/
def goodEventN : EventN := ⟨some 0, some 35, some 139, none, none⟩

/-- An event whose latitude is NaN (required field, non-finite). -/
def nanLatEventN : EventN := ⟨some 0, none, some 139, none, none⟩

/-- An event whose time string did not parse (`getTime()` is NaN). -/
def nanTimeEventN : EventN := ⟨none, some 35, some 139, none, none⟩

theorem stepDetN_nan_time (dist : Option ℚ → Option ℚ → Option ℚ → Option ℚ → Option ℚ)
    (mc : MatchingCriteria) (i : ℕ) (e : EventN) (claimed : List ℕ)
    (best : Option MatchCandidateN) (p : ℕ × EventN) (h : e.time = none) :
    stepDetN dist mc i e claimed best p = best := by
  have htd : timeDiffN e p.2 = none := by
    simp [timeDiffN, nAbsSub, h]
  have hscore : (mkCandidateN dist mc i e p).matchScore = none := by
    show calculateMatchScoreN (timeDiffN e p.2) _ _ _ mc = none
    rw [htd]
    simp [calculateMatchScoreN, nAdd]
  have hng : ngtB (none : Option ℚ) mc.timeWindow = false := rfl
  unfold stepDetN
  by_cases hm : p.1 ∈ claimed
  · have hc : claimed.contains p.1 = true := by
      simpa [List.contains, List.elem_iff] using hm
    simp [hm, hc]
  · have hc' : claimed.contains p.1 = false := by
      cases hcc : claimed.contains p.1
      · rfl
      · exact absurd (by simpa [List.contains, List.elem_iff] using hcc) hm
    by_cases h2 : ngtB (dist e.latitude e.longitude p.2.latitude p.2.longitude)
        mc.distanceThreshold = true
    · simp [hm, hc', htd, hng, h2]
    · by_cases h3 : (match magnitudeDiffN e p.2 with
          | some v => ngtB v mc.magnitudeDiffThreshold
          | none => false) = true
      · simp [hm, hc', htd, hng, h2, h3]
      · by_cases h4 : depthDiffN e p.2 > mc.depthDiffThreshold
        · simp [hm, hc', htd, hng, h2, h3, h4]
        · cases best with
          | none => simp [hm, hc', htd, hng, h2, h3, h4, hscore]
          | some b => simp [hm, hc', htd, hng, h2, h3, h4, hscore]

/-- C4 (amended): the matcher performs no validation of non-finite fields
and cannot report an error (the source function has no throw path); an
event with a NaN required field is processed silently.  A reference event
with an unparseable time passes every filter (NaN comparisons are false)
but its NaN score never wins the selection, so it simply ends unmatched
and a normal match result is produced. -/
theorem nan_time_reference_silently_unmatched
    (dist : Option ℚ → Option ℚ → Option ℚ → Option ℚ → Option ℚ)
    (dets : List EventN) (mc : MatchingCriteria) (e : EventN) (h : e.time = none) :
    (matchEventsNaN dist [e] dets mc).matchesList = [] ∧
    (matchEventsNaN dist [e] dets mc).unmatchedReference = [e] ∧
    (matchEventsNaN dist [e] dets mc).unmatchedDetected = dets := by
  have hfb : ∀ claimed, findBestMatchN dist mc 0 e dets claimed = none := fun claimed =>
    List.foldl_fixed' (fun p => stepDetN_nan_time dist mc 0 e claimed none p h) _
  have hstep : ([e].enum.foldl (stepRefN dist mc dets) ⟨[], [], []⟩) =
      (⟨[], [], []⟩ : MatchStateN) := by
    show stepRefN dist mc dets ⟨[], [], []⟩ (0, e) = _
    unfold stepRefN
    rw [hfb]
  unfold matchEventsNaN
  rw [hstep]
  refine ⟨rfl, ?_, ?_⟩ <;> simp [List.enum_map_snd]

/-- Witness for `nan_time_reference_silently_unmatched`. -/
theorem nan_time_reference_silently_unmatched_witness :
    (matchEventsNaN distZeroN [nanTimeEventN] [goodEventN] defaultCriteria).matchesList = [] :=
  (nan_time_reference_silently_unmatched distZeroN [goodEventN] defaultCriteria
    nanTimeEventN rfl).1

/-- C4 counterexample: a reference event carrying a NaN latitude does not
make the matcher report an error; the run completes and produces an
ordinary match result in which the NaN event is silently left unmatched
(its NaN distance passes the filter but its NaN score is never selected),
while the identical run with a finite latitude produces a match. -/
theorem nan_latitude_not_an_error :
    (matchEventsNaN distZeroN [nanLatEventN] [goodEventN] defaultCriteria).matchesList = [] ∧
    (matchEventsNaN distZeroN [nanLatEventN] [goodEventN]
      defaultCriteria).unmatchedReference = [nanLatEventN] ∧
    (matchEventsNaN distZeroN [nanLatEventN] [goodEventN]
      defaultCriteria).unmatchedDetected = [goodEventN] ∧
    (matchEventsNaN distZeroN [goodEventN] [goodEventN]
      defaultCriteria).summary.matchedPairs = 1 := by
  refine ⟨?_, ?_, ?_, ?_⟩ <;>
    norm_num [matchEventsNaN, stepRefN, findBestMatchN, stepDetN, mkCandidateN,
      calculateMatchScoreN, timeDiffN, magnitudeDiffN, depthDiffN, effDepth, nAbsSub, nAdd,
      ngtB, List.enum, List.enumFrom, distZeroN, goodEventN, nanLatEventN, defaultCriteria]
